import Mathlib

/-!
Shallow embedding of the task-queue core of the AgentDoc repository:
`agentdoc/queue/base.py` (TaskStatus, TaskPriority, TaskResult, Task),
`queue/manager.py` (TaskManager, QueueManager) and the execution path of
`agentdoc/queue/worker.py` (TaskWorker.execute_task).

Modelling conventions:
- Wall-clock instants (`datetime`) are naturals; functions that sample
  `datetime.now()` internally take the sampled instant as an explicit
  `now` argument.
- Python values are `Option Nat` (`Option.none` is the Python `None`;
  other payloads are collapsed to a numeric tag, which is enough because
  the scheduler treats them as opaque).
- The wrapped callable together with its stored `args`/`kwargs` is
  modelled by the outcome of applying it: either a normal return of a
  Python value or a raised exception carrying a message.  A separate
  constructor models an object that is not callable at all (what the
  `callable(self.func)` check in `Task.__post_init__` rejects).
- Python dictionaries keyed by `task_id` are association lists with a
  lookup (`dget`) and an upsert (`dput`, the Python `d[k] = v`).
- Raising an exception is returning `Except.error`; the caller that does
  not catch it keeps its previous state, which models the fact that the
  mutations of an aborted method body never happened.
- Exception messages in the source are Chinese f-strings interpolating
  ids and capacities; they are abstracted to distinct string constants
  (the claims depend only on which exception is raised, not on its text).
-/

namespace AgentDoc

/-- `TaskStatus` enum of `agentdoc/queue/base.py`. -/
inductive TaskStatus
  | pending
  | running
  | completed
  | failed
  | cancelled
  | timeout
deriving DecidableEq

/-- `TaskPriority` enum of `agentdoc/queue/base.py`. -/
inductive TaskPriority
  | low
  | normal
  | high
  | urgent
deriving DecidableEq

/-- Numeric value of a `TaskPriority` (LOW=1, NORMAL=2, HIGH=3, URGENT=4). -/
def TaskPriority.value : TaskPriority → Nat
  | .low => 1
  | .normal => 2
  | .high => 3
  | .urgent => 4

/-- A Python value: `Option.none` is the Python `None`. -/
abbrev PyVal := Option Nat

instance {ε α : Type} [DecidableEq ε] [DecidableEq α] : DecidableEq (Except ε α) := fun a b =>
  match a, b with
  | .ok x, .ok y =>
    if h : x = y then isTrue (h ▸ rfl) else isFalse (fun he => h (by cases he; rfl))
  | .error x, .error y =>
    if h : x = y then isTrue (h ▸ rfl) else isFalse (fun he => h (by cases he; rfl))
  | .ok _, .error _ => isFalse (fun he => by cases he)
  | .error _, .ok _ => isFalse (fun he => by cases he)

/-- The `func` field of a Task, applied to its stored `args`/`kwargs`:
either not callable at all, or callable with a fixed outcome (a normal
return, or a raised exception with its message `str(e)`). -/
inductive PyFunc
  | notCallable
  | callable (outcome : Except String PyVal)
deriving DecidableEq

/-- Exceptions raised by the queue core: `QueueError` (from
`core/exceptions.py`) and the built-in `ValueError`. -/
inductive PyError
  | queueError (msg : String)
  | valueError (msg : String)
deriving DecidableEq

/-- Message of the `ValueError` raised by `Task.__post_init__`. -/
def funcMustBeCallableMsg : String := "func must be callable"

/-- Message of the `QueueError` raised by `QueueManager.submit_task` when
the queue is full (source text interpolates the capacity). -/
def queueFullMsg : String := "queue is full"

/-- Message of the `QueueError` raised by `TaskManager.add_task` on a
duplicate task id (source text interpolates the id). -/
def duplicateTaskMsg : String := "task already exists"

/-- Message of the `ValueError` raised by `Task.reset_for_retry` when the
task cannot be retried. -/
def cannotRetryMsg : String := "task cannot be retried"

/-- `TaskResult` dataclass of `agentdoc/queue/base.py`.  The `metadata`
copy is omitted (no claim mentions it). -/
structure TaskResult where
  task_id : Nat
  status : TaskStatus
  result : PyVal := none
  error : Option String := none
  start_time : Option Nat := none
  end_time : Option Nat := none
  execution_time : Option Nat := none
deriving DecidableEq

/-- `Task` dataclass of `agentdoc/queue/base.py`.  `task_id` is a natural
(the source uses a uuid string; only freshness matters).  `scheduled_at`
is stored already defaulted: `__post_init__` replaces a missing value by
`created_at`, and nothing ever writes `None` back, so the field is total
here. -/
structure Task where
  func : PyFunc
  task_id : Nat
  priority : TaskPriority := .normal
  timeout : Option Nat := none
  retry_count : Nat := 0
  max_retries : Nat := 3
  created_at : Nat
  scheduled_at : Nat
  status : TaskStatus := .pending
  result : Option TaskResult := none
  worker_id : Option Nat := none
deriving DecidableEq

/-- Dataclass construction of a `Task` followed by `Task.__post_init__`:
raises `ValueError` if `func` is not callable, and defaults a missing
`scheduled_at` to `created_at`.  `created_at` is the instant sampled by
the `datetime.now` default factory. -/
def Task.construct (func : PyFunc) (task_id : Nat) (priority : TaskPriority)
    (timeout : Option Nat) (max_retries : Nat) (created_at : Nat)
    (scheduled_at : Option Nat) : Except PyError Task :=
  match func with
  | .notCallable => .error (.valueError funcMustBeCallableMsg)
  | .callable _ =>
    .ok { func := func, task_id := task_id, priority := priority,
          timeout := timeout, retry_count := 0, max_retries := max_retries,
          created_at := created_at,
          scheduled_at := scheduled_at.getD created_at,
          status := .pending, result := none, worker_id := none }

/-- `Task.execute` of `agentdoc/queue/base.py`.  The source sets
`status = RUNNING`, invokes the callable, and on either outcome builds a
`TaskResult`, stores it on the task, sets the terminal status and returns
the result; the `try`/`except` swallows every exception, so the function
is total (nothing propagates to the caller) and its net effect on the
task is the terminal status plus the stored result.  `startT` and `endT`
are the two `datetime.now()` samples.  The `notCallable` branch mirrors
the `TypeError` CPython would raise on calling a non-callable (also
caught by the `except`); it is unreachable for constructed tasks because
`__post_init__` rejects non-callables. -/
def Task.execute (t : Task) (startT endT : Nat) : Task × TaskResult :=
  match t.func with
  | .callable (.ok v) =>
    let r : TaskResult :=
      { task_id := t.task_id, status := .completed, result := v,
        error := none, start_time := some startT, end_time := some endT,
        execution_time := some (endT - startT) }
    ({ t with status := .completed, result := some r }, r)
  | .callable (.error msg) =>
    let r : TaskResult :=
      { task_id := t.task_id, status := .failed, result := none,
        error := some msg, start_time := some startT, end_time := some endT,
        execution_time := some (endT - startT) }
    ({ t with status := .failed, result := some r }, r)
  | .notCallable =>
    let r : TaskResult :=
      { task_id := t.task_id, status := .failed, result := none,
        error := some "object is not callable", start_time := some startT,
        end_time := some endT, execution_time := some (endT - startT) }
    ({ t with status := .failed, result := some r }, r)

/-- `Task.can_retry`: status is FAILED and `retry_count < max_retries`. -/
def Task.can_retry (t : Task) : Bool :=
  t.status == .failed && t.retry_count < t.max_retries

/-- `Task.reset_for_retry`: raises `ValueError` unless `can_retry`;
otherwise increments `retry_count`, resets status to PENDING and clears
the stored result and `worker_id`. -/
def Task.reset_for_retry (t : Task) : Except PyError Task :=
  if !t.can_retry then .error (.valueError cannotRetryMsg)
  else .ok { t with retry_count := t.retry_count + 1, status := .pending,
                    result := none, worker_id := none }

/-- `Task.cancel`: a no-op on a RUNNING task, otherwise sets status to
CANCELLED (whatever the previous status was). -/
def Task.cancel (t : Task) : Task :=
  if t.status = .running then t else { t with status := .cancelled }

/-- `Task.is_ready`: PENDING and `scheduled_at <= now`.  The source
writes `if self.scheduled_at and self.scheduled_at > now`; the truthiness
guard never fires because `scheduled_at` is always a datetime after
`__post_init__`. -/
def Task.is_ready (t : Task) (now : Nat) : Bool :=
  if t.status ≠ TaskStatus.pending then false
  else if t.scheduled_at > now then false
  else true

/-- `Task.__lt__`, the heap comparator: higher priority value first, ties
broken by earlier creation time.  (The `NotImplemented` branch for
non-Task operands cannot arise: the heap only holds tasks.) -/
def Task.lt (a b : Task) : Bool :=
  if a.priority.value ≠ b.priority.value then
    decide (a.priority.value > b.priority.value)
  else decide (a.created_at < b.created_at)

/-- Lookup in a Python dict modelled as an association list. -/
def dget {α : Type} : List (Nat × α) → Nat → Option α
  | [], _ => none
  | (k, v) :: rest, id => if k = id then some v else dget rest id

/-- Upsert in a Python dict (`d[k] = v`): replaces the binding if the key
is present, otherwise appends it. -/
def dput {α : Type} : List (Nat × α) → Nat → α → List (Nat × α)
  | [], k, v => [(k, v)]
  | (k0, v0) :: rest, k, v =>
    if k0 = k then (k0, v) :: rest else (k0, v0) :: dput rest k v

/-- An element of the `QueueManager._queue` heap.  The heap holds
references to the same mutable `Task` objects the registry holds; the
comparator `Task.__lt__` reads only `priority` and `created_at`, which
are never mutated after construction, so the entry caches that ordering
key, while mutable fields (`status`, used by the ready check) are read
through the registry at pop time via the reference `id`. -/
structure HeapEntry where
  prio : Nat
  created : Nat
  id : Nat
deriving DecidableEq

/-- `Task.__lt__` expressed on cached heap keys. -/
def HeapEntry.lt (a b : HeapEntry) : Bool :=
  if a.prio ≠ b.prio then decide (a.prio > b.prio)
  else decide (a.created < b.created)

/-- The heap entry for a task (a reference to the task object plus its
immutable ordering key). -/
def Task.entry (t : Task) : HeapEntry :=
  { prio := t.priority.value, created := t.created_at, id := t.task_id }

/-- `heapq.heappush` on the queue, modelled by its library contract: the
backing list is kept sorted by `Task.__lt__` (ascending, so the head is
the element `heappop` would return); insertion walks past every strictly
smaller element.  Elements whose keys tie stay in an arbitrary relative
order, exactly as in a binary heap. -/
def heappush (e : HeapEntry) : List HeapEntry → List HeapEntry
  | [] => [e]
  | f :: rest => if HeapEntry.lt f e then f :: heappush e rest else e :: f :: rest

/-- Combined state of a `QueueManager` (with its embedded `TaskManager`)
and the single in-flight slot of a `TaskWorker` (`_current_task`).
`tasks` and `results` are the registry dicts, `queue` is the heap,
`next_id` generates fresh task ids (the source draws uuid4 strings; only
freshness matters). -/
structure ManagerState where
  tasks : List (Nat × Task)
  results : List (Nat × TaskResult)
  queue : List HeapEntry
  max_queue_size : Nat
  next_id : Nat
  inflight : Option Nat
deriving DecidableEq

/-- A fresh `QueueManager(max_queue_size)` with an idle worker. -/
def initState (max_queue_size : Nat) : ManagerState :=
  { tasks := [], results := [], queue := [], max_queue_size := max_queue_size,
    next_id := 0, inflight := none }

/-- `TaskManager.add_task`: raises `QueueError` on a duplicate id,
otherwise stores the task keyed by its `task_id`. -/
def TaskManager.add_task (st : ManagerState) (t : Task) : Except PyError ManagerState :=
  if (dget st.tasks t.task_id).isSome then .error (.queueError duplicateTaskMsg)
  else .ok { st with tasks := dput st.tasks t.task_id t }

/-- `TaskManager.get_task`. -/
def TaskManager.get_task (st : ManagerState) (id : Nat) : Option Task :=
  dget st.tasks id

/-- `TaskManager.update_task_status`: sets the given status on the stored
task if the id is known (the status argument is unconstrained). -/
def TaskManager.update_task_status (st : ManagerState) (id : Nat)
    (status : TaskStatus) : Bool × ManagerState :=
  match dget st.tasks id with
  | none => (false, st)
  | some t => (true, { st with tasks := dput st.tasks id { t with status := status } })

/-- `TaskManager.save_result`: upsert keyed by `result.task_id`. -/
def TaskManager.save_result (st : ManagerState) (r : TaskResult) : ManagerState :=
  { st with results := dput st.results r.task_id r }

/-- `TaskManager.get_result`. -/
def TaskManager.get_result (st : ManagerState) (id : Nat) : Option TaskResult :=
  dget st.results id

/-- `QueueManager.submit_task`: rejects with `QueueError` when the heap
already holds `max_queue_size` elements, otherwise constructs the task
(`ValueError` from `__post_init__` propagates), registers it
(`add_task`) and pushes it onto the heap, returning the new id.  `now`
is the construction instant (`created_at`).  On an error nothing of the
state survives to the caller, mirroring that the aborted method body
never reached its mutations. -/
def QueueManager.submit_task (st : ManagerState) (func : PyFunc)
    (priority : TaskPriority) (timeout : Option Nat) (max_retries : Nat)
    (scheduled_at : Option Nat) (now : Nat) : Except PyError (Nat × ManagerState) :=
  if st.queue.length ≥ st.max_queue_size then
    .error (.queueError queueFullMsg)
  else
    match Task.construct func st.next_id priority timeout max_retries now scheduled_at with
    | .error e => .error e
    | .ok t =>
      match TaskManager.add_task st t with
      | .error e => .error e
      | .ok st2 =>
        .ok (t.task_id,
             { st2 with queue := heappush t.entry st2.queue, next_id := st2.next_id + 1 })

/-- The `while self._queue` loop of `QueueManager.get_next_task`: pop the
top; a ready task is returned (it stays out of the heap); a PENDING but
not-yet-due task is pushed back and the loop breaks, returning `None`;
any other popped task is dropped and the loop continues.  The `none`
branch of the registry read is unreachable: the heap entry is a live
reference to the task object (and `remove_task`, which could orphan one,
is not among the modelled operations). -/
def getNextLoop (tasks : List (Nat × Task)) (now : Nat) :
    List HeapEntry → Option Task × List HeapEntry
  | [] => (none, [])
  | e :: rest =>
    match dget tasks e.id with
    | none => getNextLoop tasks now rest
    | some t =>
      if t.is_ready now then (some t, rest)
      else if t.status = TaskStatus.pending then (none, heappush e rest)
      else getNextLoop tasks now rest

/-- `QueueManager.get_next_task` at instant `now`. -/
def QueueManager.get_next_task (st : ManagerState) (now : Nat) :
    Option Task × ManagerState :=
  match getNextLoop st.tasks now st.queue with
  | (r, q) => (r, { st with queue := q })

/-- `QueueManager.cancel_task`: `False` for an unknown id or a RUNNING
task; otherwise `task.cancel()` (status becomes CANCELLED) and the task
is filtered out of the heap (the re-heapify keeps the remaining order). -/
def QueueManager.cancel_task (st : ManagerState) (id : Nat) : Bool × ManagerState :=
  match dget st.tasks id with
  | none => (false, st)
  | some t =>
    if t.status = .running then (false, st)
    else
      (true, { st with tasks := dput st.tasks id (Task.cancel t),
                       queue := st.queue.filter (fun e => e.id ≠ id) })

/-- `QueueManager.retry_task`: `False` for an unknown id or when
`can_retry` fails; otherwise `reset_for_retry` (whose own `ValueError`
guard cannot fire, `can_retry` was just checked) and a push back onto
the heap. -/
def QueueManager.retry_task (st : ManagerState) (id : Nat) : Bool × ManagerState :=
  match dget st.tasks id with
  | none => (false, st)
  | some t =>
    if !t.can_retry then (false, st)
    else
      match t.reset_for_retry with
      | .error _ => (false, st)
      | .ok t2 =>
        (true, { st with tasks := dput st.tasks id t2,
                         queue := heappush t2.entry st.queue })

/-- First half of a worker loop iteration (`TaskWorker._worker_loop`
calling `get_next_task`, then the prologue of
`TaskWorker.execute_task`): the popped task becomes `_current_task`, its
`worker_id` is set, and `update_task_status` marks it RUNNING in the
registry (the registry entry and the popped object are the same object,
keyed by its `task_id`).  The split at the callable invocation makes the
intermediate RUNNING state, observable by other threads, explicit. -/
def TaskWorker.execute_task_begin (st : ManagerState) (workerId : Nat)
    (now : Nat) : Option Nat × ManagerState :=
  match QueueManager.get_next_task st now with
  | (none, st2) => (none, st2)
  | (some t, st2) =>
    let t2 := { t with worker_id := some workerId, status := .running }
    (some t.task_id,
     { st2 with tasks := dput st2.tasks t.task_id t2, inflight := some t.task_id })

/-- Second half of `TaskWorker.execute_task`: run `Task.execute` on the
current task (terminal status and stored result), `save_result` to the
registry, and the `finally` block clearing `worker_id` and
`_current_task`.  The unreachable registry-miss branch still clears the
in-flight slot. -/
def TaskWorker.execute_task_finish (st : ManagerState) (startT endT : Nat) :
    Option TaskResult × ManagerState :=
  match st.inflight with
  | none => (none, st)
  | some id =>
    match dget st.tasks id with
    | none => (none, { st with inflight := none })
    | some t =>
      match Task.execute t startT endT with
      | (t2, r) =>
        let st2 := { st with tasks := dput st.tasks t.task_id { t2 with worker_id := none } }
        let st3 := TaskManager.save_result st2 r
        (some r, { st3 with inflight := none })

/-- One public operation on the scheduler core.  `submit` carries the
construction instant, `getNext`/`beginNext` the instant the ready check
samples, `finish` the two instants `execute` samples.  `updateStatus` is
the registry operation `TaskManager.update_task_status` with its
unconstrained status argument. -/
inductive Op
  | submit (func : PyFunc) (priority : TaskPriority) (timeout : Option Nat)
      (max_retries : Nat) (scheduled_at : Option Nat) (now : Nat)
  | getNext (now : Nat)
  | beginNext (workerId : Nat) (now : Nat)
  | finish (startT endT : Nat)
  | cancel (id : Nat)
  | retry (id : Nat)
  | updateStatus (id : Nat) (status : TaskStatus)
deriving DecidableEq

/-- Effect of one operation on the state (return values dropped; an
operation that raises leaves the state as it was). -/
def applyOp (st : ManagerState) : Op → ManagerState
  | .submit f p tmo mr sc now =>
    match QueueManager.submit_task st f p tmo mr sc now with
    | .ok (_, st2) => st2
    | .error _ => st
  | .getNext now => (QueueManager.get_next_task st now).2
  | .beginNext w now => (TaskWorker.execute_task_begin st w now).2
  | .finish s e => (TaskWorker.execute_task_finish st s e).2
  | .cancel id => (QueueManager.cancel_task st id).2
  | .retry id => (QueueManager.retry_task st id).2
  | .updateStatus id s => (TaskManager.update_task_status st id s).2

/-- Run a sequence of operations. -/
def runOps (st : ManagerState) : List Op → ManagerState
  | [] => st
  | op :: ops => runOps (applyOp st op) ops

/-- All intermediate states of a run, the initial state included. -/
def opTrace (st : ManagerState) : List Op → List ManagerState
  | [] => [st]
  | op :: ops => st :: opTrace (applyOp st op) ops

/-- Operations of the scheduler/worker surface proper: everything except
the raw registry status write `update_task_status`. -/
def schedOp : Op → Bool
  | .updateStatus _ _ => false
  | _ => true

/-- The status transitions the specification allows: the execution path
PENDING → RUNNING → (COMPLETED or FAILED), cancellation of a pending
task, and retry of a failed one. -/
def allowedTransition : TaskStatus → TaskStatus → Bool
  | .pending, .running => true
  | .running, .completed => true
  | .running, .failed => true
  | .pending, .cancelled => true
  | .failed, .pending => true
  | _, _ => false

/-- `allowedTransition` extended by what `cancel_task` actually does: it
cancels any non-RUNNING task, so COMPLETED and FAILED tasks can also
move to CANCELLED. -/
def allowedTransitionCancelAny : TaskStatus → TaskStatus → Bool
  | .completed, .cancelled => true
  | .failed, .cancelled => true
  | a, b => allowedTransition a b

/-- One registered task either keeps its status across a step or moves
along an allowed edge (tasks that disappear or appear are not status
changes). -/
def statusStepOk (allowed : TaskStatus → TaskStatus → Bool)
    (st st2 : ManagerState) : Bool :=
  st.tasks.all fun p =>
    match dget st2.tasks p.1 with
    | none => true
    | some t2 => t2.status == p.2.status || allowed p.2.status t2.status

/-- Every consecutive pair of states in a trace passes `statusStepOk`. -/
def traceOk (allowed : TaskStatus → TaskStatus → Bool) :
    List ManagerState → Bool
  | [] => true
  | [_] => true
  | s :: s2 :: rest => statusStepOk allowed s s2 && traceOk allowed (s2 :: rest)

/-- Keys of an association list are pairwise distinct. -/
def nodupKeys {α : Type} : List (Nat × α) → Bool
  | [] => true
  | (k, _) :: rest => rest.all (fun p => p.1 ≠ k) && nodupKeys rest

/-- Every registry binding stores the task under its own `task_id` (the
source writes `self._tasks[task.task_id] = task`). -/
def taskIdMatch (st : ManagerState) : Bool :=
  st.tasks.all fun p => p.2.task_id == p.1

/-- No registered task has status TIMEOUT (nothing in the scheduler or
worker path ever writes it; only the raw registry status write can). -/
def noTimeout (st : ManagerState) : Bool :=
  st.tasks.all fun p => p.2.status ≠ TaskStatus.timeout

/-- The in-flight task, when there is one, is registered and RUNNING. -/
def inflightRunning (st : ManagerState) : Bool :=
  match st.inflight with
  | none => true
  | some id =>
    match dget st.tasks id with
    | none => false
    | some t => t.status == .running

/-- State invariant maintained by the scheduler/worker operations. -/
def Inv (st : ManagerState) : Bool :=
  nodupKeys st.tasks && taskIdMatch st && noTimeout st && inflightRunning st

/-- Tasks currently referenced by the heap, in heap order. -/
def queueTasks (st : ManagerState) : List Task :=
  st.queue.filterMap fun e => dget st.tasks e.id

/-- A heap entry whose referenced task is registered, ready at `now`, and
matches the cached ordering key. -/
def entryReadyWf (tasks : List (Nat × Task)) (now : Nat) (e : HeapEntry) : Bool :=
  match dget tasks e.id with
  | none => false
  | some t => t.is_ready now && e.prio == t.priority.value && e.created == t.created_at

/-- The heap list is sorted: no later entry compares `__lt__`-below an
earlier one (the order `heappop` drains a heap in). -/
def sortedEntries : List HeapEntry → Bool
  | [] => true
  | [_] => true
  | e :: f :: rest => !HeapEntry.lt f e && sortedEntries (f :: rest)

/-- Dispatch order required by the specification: strictly higher
priority first; among equal priorities, not created later. -/
def taskOrdered (a b : Task) : Prop :=
  a.priority.value > b.priority.value ∨
    (a.priority.value = b.priority.value ∧ a.created_at ≤ b.created_at)

instance (a b : Task) : Decidable (taskOrdered a b) := by
  unfold taskOrdered; infer_instance

/-- Results of `n` successive `get_next_task` calls, stopping at the
first `None`. -/
def drainN (st : ManagerState) (now : Nat) : Nat → List Task
  | 0 => []
  | n + 1 =>
    match QueueManager.get_next_task st now with
    | (none, _) => []
    | (some t, st2) => t :: drainN st2 now n

theorem dget_dput_self {α : Type} (l : List (Nat × α)) (k : Nat) (v : α) :
    dget (dput l k v) k = some v := by
  induction l with
  | nil => simp [dput, dget]
  | cons p rest ih =>
    obtain ⟨k0, v0⟩ := p
    by_cases h : k0 = k
    · simp [dput, dget, h]
    · simp [dput, dget, h, ih]

theorem dget_dput_ne {α : Type} (l : List (Nat × α)) (k k2 : Nat) (v : α)
    (h : k2 ≠ k) : dget (dput l k v) k2 = dget l k2 := by
  induction l with
  | nil =>
    have hne : k ≠ k2 := fun hh => h hh.symm
    simp [dput, dget, hne]
  | cons p rest ih =>
    obtain ⟨k0, v0⟩ := p
    by_cases h0 : k0 = k
    · subst h0
      have hne : k0 ≠ k2 := fun hh => h hh.symm
      simp [dput, dget, hne]
    · by_cases h2 : k0 = k2 <;> simp [dput, dget, h0, h2, ih, h]

theorem dget_mem {α : Type} (l : List (Nat × α)) (k : Nat) (v : α)
    (h : dget l k = some v) : (k, v) ∈ l := by
  induction l with
  | nil => simp [dget] at h
  | cons p rest ih =>
    obtain ⟨k0, v0⟩ := p
    by_cases h0 : k0 = k
    · subst h0
      simp [dget] at h
      simp [h]
    · simp [dget, h0] at h
      simp [ih h]

theorem mem_dget {α : Type} (l : List (Nat × α)) (k : Nat) (v : α)
    (hn : nodupKeys l = true) (h : (k, v) ∈ l) : dget l k = some v := by
  induction l with
  | nil => simp at h
  | cons p rest ih =>
    obtain ⟨k0, v0⟩ := p
    simp only [nodupKeys, Bool.and_eq_true] at hn
    rcases List.mem_cons.mp h with h1 | h1
    · cases h1
      simp [dget]
    · have hk0 : (fun p : Nat × α => decide (p.1 ≠ k0)) (k, v) = true :=
        List.all_eq_true.mp hn.1 _ h1
      have hne2 : k ≠ k0 := by simpa using hk0
      have hne : ¬ k0 = k := fun hh => hne2 hh.symm
      simp [dget, hne, ih hn.2 h1]

theorem all_dput {α : Type} (l : List (Nat × α)) (k : Nat) (v : α)
    (p : Nat × α → Bool) (hl : l.all p = true) (hv : p (k, v) = true) :
    (dput l k v).all p = true := by
  induction l with
  | nil => simp [dput, hv]
  | cons q rest ih =>
    obtain ⟨k0, v0⟩ := q
    simp only [List.all_cons, Bool.and_eq_true] at hl
    by_cases h0 : k0 = k
    · subst h0
      simp [dput, List.all_cons, hv, hl.2]
    · simp [dput, h0, List.all_cons, hl.1, ih hl.2]

theorem nodupKeys_dput {α : Type} (l : List (Nat × α)) (k : Nat) (v : α)
    (hn : nodupKeys l = true) : nodupKeys (dput l k v) = true := by
  induction l with
  | nil => simp [dput, nodupKeys]
  | cons q rest ih =>
    obtain ⟨k0, v0⟩ := q
    simp only [nodupKeys, Bool.and_eq_true] at hn
    by_cases h0 : k0 = k
    · subst h0
      simp only [dput, if_pos rfl, nodupKeys, Bool.and_eq_true]
      exact ⟨hn.1, hn.2⟩
    · simp only [dput, if_neg h0, nodupKeys, Bool.and_eq_true]
      constructor
      · exact all_dput rest k v _ hn.1 (by simp; exact fun hh => h0 hh.symm)
      · exact ih hn.2

theorem heappush_mem (e f : HeapEntry) (l : List HeapEntry)
    (h : f ∈ heappush e l) : f = e ∨ f ∈ l := by
  induction l with
  | nil => simp [heappush] at h; simp [h]
  | cons g rest ih =>
    by_cases hg : HeapEntry.lt g e
    · simp [heappush, hg] at h
      rcases h with h | h
      · simp [h]
      · rcases ih h with h | h
        · simp [h]
        · simp [h]
    · simp [heappush, hg] at h
      rcases h with h | h | h <;> simp [h]

theorem getNextLoop_some_ready (tasks : List (Nat × Task)) (now : Nat)
    (q : List HeapEntry) (t : Task) (q2 : List HeapEntry)
    (h : getNextLoop tasks now q = (some t, q2)) : t.is_ready now = true := by
  induction q with
  | nil => simp [getNextLoop] at h
  | cons e rest ih =>
    simp only [getNextLoop] at h
    cases hg : dget tasks e.id with
    | none => rw [hg] at h; exact ih h
    | some u =>
      rw [hg] at h
      by_cases hr : u.is_ready now
      · simp [hr] at h
        exact h.1 ▸ hr
      · simp [hr] at h
        by_cases hp : u.status = TaskStatus.pending
        · simp [hp] at h
        · simp [hp] at h
          exact ih h

theorem getNextLoop_some_mem (tasks : List (Nat × Task)) (now : Nat)
    (q : List HeapEntry) (t : Task) (q2 : List HeapEntry)
    (h : getNextLoop tasks now q = (some t, q2)) :
    ∃ e ∈ q, dget tasks e.id = some t := by
  induction q with
  | nil => simp [getNextLoop] at h
  | cons e rest ih =>
    simp only [getNextLoop] at h
    cases hg : dget tasks e.id with
    | none =>
      rw [hg] at h
      obtain ⟨f, hf, hd⟩ := ih h
      exact ⟨f, by simp [hf], hd⟩
    | some u =>
      rw [hg] at h
      by_cases hr : u.is_ready now
      · simp [hr] at h
        exact ⟨e, by simp, by rw [hg, h.1]⟩
      · simp [hr] at h
        by_cases hp : u.status = TaskStatus.pending
        · simp [hp] at h
        · simp [hp] at h
          obtain ⟨f, hf, hd⟩ := ih h
          exact ⟨f, by simp [hf], hd⟩

theorem getNextLoop_queue_sub (tasks : List (Nat × Task)) (now : Nat)
    (q : List HeapEntry) (f : HeapEntry)
    (h : f ∈ (getNextLoop tasks now q).2) : f ∈ q := by
  induction q with
  | nil => simp [getNextLoop] at h
  | cons e rest ih =>
    simp only [getNextLoop] at h
    cases hg : dget tasks e.id with
    | none =>
      rw [hg] at h
      exact List.mem_cons_of_mem _ (ih h)
    | some u =>
      rw [hg] at h
      by_cases hr : u.is_ready now
      · simp [hr] at h
        exact List.mem_cons_of_mem _ h
      · simp [hr] at h
        by_cases hp : u.status = TaskStatus.pending
        · simp [hp] at h
          rcases heappush_mem e f rest h with h | h
          · simp [h]
          · exact List.mem_cons_of_mem _ h
        · simp [hp] at h
          exact List.mem_cons_of_mem _ (ih h)

/-- The task a successful `submit_task` constructs. -/
def submittedTask (func : PyFunc) (priority : TaskPriority) (timeout : Option Nat)
    (max_retries : Nat) (scheduled_at : Option Nat) (now id : Nat) : Task :=
  { func := func, task_id := id, priority := priority, timeout := timeout,
    retry_count := 0, max_retries := max_retries, created_at := now,
    scheduled_at := scheduled_at.getD now, status := .pending, result := none,
    worker_id := none }

/-- The task `reset_for_retry` produces on success. -/
def resetTask (t : Task) : Task :=
  { t with retry_count := t.retry_count + 1, status := .pending,
           result := none, worker_id := none }

theorem construct_callable (b : Except String PyVal) (id : Nat) (p : TaskPriority)
    (tmo : Option Nat) (mr now : Nat) (sc : Option Nat) :
    Task.construct (.callable b) id p tmo mr now sc =
      .ok (submittedTask (.callable b) p tmo mr sc now id) := rfl

theorem submit_task_full (st : ManagerState) (f : PyFunc) (p : TaskPriority)
    (tmo : Option Nat) (mr : Nat) (sc : Option Nat) (now : Nat)
    (h : st.queue.length ≥ st.max_queue_size) :
    QueueManager.submit_task st f p tmo mr sc now = .error (.queueError queueFullMsg) := by
  simp [QueueManager.submit_task, h]

theorem submit_task_notCallable (st : ManagerState) (p : TaskPriority)
    (tmo : Option Nat) (mr : Nat) (sc : Option Nat) (now : Nat)
    (h : ¬ st.queue.length ≥ st.max_queue_size) :
    QueueManager.submit_task st .notCallable p tmo mr sc now =
      .error (.valueError funcMustBeCallableMsg) := by
  simp [QueueManager.submit_task, h, Task.construct]

theorem submit_task_dup (st : ManagerState) (b : Except String PyVal)
    (p : TaskPriority) (tmo : Option Nat) (mr : Nat) (sc : Option Nat) (now : Nat)
    (h : ¬ st.queue.length ≥ st.max_queue_size)
    (hd : (dget st.tasks st.next_id).isSome = true) :
    QueueManager.submit_task st (.callable b) p tmo mr sc now =
      .error (.queueError duplicateTaskMsg) := by
  simp [QueueManager.submit_task, h, construct_callable, TaskManager.add_task,
        submittedTask, hd]

theorem submit_task_ok (st : ManagerState) (b : Except String PyVal)
    (p : TaskPriority) (tmo : Option Nat) (mr : Nat) (sc : Option Nat) (now : Nat)
    (h : ¬ st.queue.length ≥ st.max_queue_size)
    (hd : dget st.tasks st.next_id = none) :
    QueueManager.submit_task st (.callable b) p tmo mr sc now =
      .ok (st.next_id,
        { st with
            tasks := dput st.tasks st.next_id (submittedTask (.callable b) p tmo mr sc now st.next_id),
            queue := heappush (Task.entry (submittedTask (.callable b) p tmo mr sc now st.next_id)) st.queue,
            next_id := st.next_id + 1 }) := by
  simp [QueueManager.submit_task, h, construct_callable, TaskManager.add_task,
        submittedTask, hd]

theorem cancel_task_none (st : ManagerState) (id : Nat)
    (h : dget st.tasks id = none) : QueueManager.cancel_task st id = (false, st) := by
  simp [QueueManager.cancel_task, h]

theorem cancel_task_running (st : ManagerState) (id : Nat) (t : Task)
    (h : dget st.tasks id = some t) (hr : t.status = .running) :
    QueueManager.cancel_task st id = (false, st) := by
  simp [QueueManager.cancel_task, h, hr]

theorem cancel_task_ok (st : ManagerState) (id : Nat) (t : Task)
    (h : dget st.tasks id = some t) (hr : ¬ t.status = .running) :
    QueueManager.cancel_task st id =
      (true, { st with tasks := dput st.tasks id { t with status := .cancelled },
                       queue := st.queue.filter (fun e => e.id ≠ id) }) := by
  simp [QueueManager.cancel_task, h, hr, Task.cancel]

theorem reset_for_retry_ok (t : Task) (h : t.can_retry = true) :
    t.reset_for_retry = .ok (resetTask t) := by
  simp [Task.reset_for_retry, h, resetTask]

theorem retry_task_none (st : ManagerState) (id : Nat)
    (h : dget st.tasks id = none) : QueueManager.retry_task st id = (false, st) := by
  simp [QueueManager.retry_task, h]

theorem retry_task_noRetry (st : ManagerState) (id : Nat) (t : Task)
    (h : dget st.tasks id = some t) (hc : t.can_retry = false) :
    QueueManager.retry_task st id = (false, st) := by
  simp [QueueManager.retry_task, h, hc]

theorem retry_task_ok (st : ManagerState) (id : Nat) (t : Task)
    (h : dget st.tasks id = some t) (hc : t.can_retry = true) :
    QueueManager.retry_task st id =
      (true, { st with tasks := dput st.tasks id (resetTask t),
                       queue := heappush (Task.entry (resetTask t)) st.queue }) := by
  simp [QueueManager.retry_task, h, hc, reset_for_retry_ok]

theorem get_next_task_nil (st : ManagerState) (now : Nat) (h : st.queue = []) :
    QueueManager.get_next_task st now = (none, st) := by
  cases st with
  | mk tk rs q mx ni fl =>
    simp only at h
    subst h
    simp [QueueManager.get_next_task, getNextLoop]

theorem get_next_task_ready (st : ManagerState) (now : Nat) (e : HeapEntry)
    (rest : List HeapEntry) (t : Task) (h : st.queue = e :: rest)
    (hg : dget st.tasks e.id = some t) (hr : t.is_ready now = true) :
    QueueManager.get_next_task st now = (some t, { st with queue := rest }) := by
  simp [QueueManager.get_next_task, h, getNextLoop, hg, hr]

theorem get_next_task_blocked (st : ManagerState) (now : Nat) (e : HeapEntry)
    (rest : List HeapEntry) (t : Task) (h : st.queue = e :: rest)
    (hg : dget st.tasks e.id = some t) (hr : t.is_ready now = false)
    (hp : t.status = .pending) :
    QueueManager.get_next_task st now = (none, { st with queue := heappush e rest }) := by
  simp [QueueManager.get_next_task, h, getNextLoop, hg, hr, hp]

theorem get_next_task_skip (st : ManagerState) (now : Nat) (e : HeapEntry)
    (rest : List HeapEntry) (t : Task) (h : st.queue = e :: rest)
    (hg : dget st.tasks e.id = some t) (hr : t.is_ready now = false)
    (hp : ¬ t.status = .pending) :
    QueueManager.get_next_task st now =
      QueueManager.get_next_task { st with queue := rest } now := by
  simp [QueueManager.get_next_task, h, getNextLoop, hg, hr, hp]

theorem execute_task_begin_none (st : ManagerState) (w now : Nat)
    (h : (QueueManager.get_next_task st now).1 = none) :
    TaskWorker.execute_task_begin st w now =
      (none, (QueueManager.get_next_task st now).2) := by
  unfold TaskWorker.execute_task_begin
  rcases hq : QueueManager.get_next_task st now with ⟨r, st2⟩
  rw [hq] at h
  simp at h
  simp [h]

theorem execute_task_begin_some (st : ManagerState) (w now : Nat) (t : Task)
    (st2 : ManagerState) (h : QueueManager.get_next_task st now = (some t, st2)) :
    TaskWorker.execute_task_begin st w now =
      (some t.task_id,
       { st2 with tasks := dput st2.tasks t.task_id { t with worker_id := some w, status := .running },
                  inflight := some t.task_id }) := by
  unfold TaskWorker.execute_task_begin
  rw [h]

theorem execute_task_finish_none (st : ManagerState) (s e : Nat)
    (h : st.inflight = none) : TaskWorker.execute_task_finish st s e = (none, st) := by
  simp [TaskWorker.execute_task_finish, h]

theorem execute_task_finish_miss (st : ManagerState) (s e : Nat) (id : Nat)
    (h : st.inflight = some id) (hg : dget st.tasks id = none) :
    TaskWorker.execute_task_finish st s e = (none, { st with inflight := none }) := by
  simp [TaskWorker.execute_task_finish, h, hg]

theorem execute_task_finish_some (st : ManagerState) (s e2 : Nat) (id : Nat) (t : Task)
    (h : st.inflight = some id) (hg : dget st.tasks id = some t) :
    TaskWorker.execute_task_finish st s e2 =
      (some (Task.execute t s e2).2,
       { st with
           tasks := dput st.tasks t.task_id
             { (Task.execute t s e2).1 with worker_id := none },
           results := dput st.results (Task.execute t s e2).2.task_id (Task.execute t s e2).2,
           inflight := none }) := by
  unfold TaskWorker.execute_task_finish
  rw [h]
  rcases he : Task.execute t s e2 with ⟨t2, r⟩
  simp [hg, he, TaskManager.save_result]

theorem execute_facts (t : Task) (s e2 : Nat) :
    ((Task.execute t s e2).1.status = TaskStatus.completed ∨
      (Task.execute t s e2).1.status = TaskStatus.failed) ∧
    (Task.execute t s e2).1.task_id = t.task_id ∧
    (Task.execute t s e2).2.task_id = t.task_id := by
  rcases hf : t.func with _ | o
  · simp [Task.execute, hf]
  · cases o with
    | ok v => simp [Task.execute, hf]
    | error m => simp [Task.execute, hf]

theorem statusStepOk_tasks_eq (allowed : TaskStatus → TaskStatus → Bool)
    (st st2 : ManagerState) (hn : nodupKeys st.tasks = true)
    (h : st2.tasks = st.tasks) : statusStepOk allowed st st2 = true := by
  unfold statusStepOk
  rw [List.all_eq_true]
  intro p hp
  rw [h, mem_dget st.tasks p.1 p.2 hn hp]
  simp

theorem statusStepOk_dput (allowed : TaskStatus → TaskStatus → Bool)
    (st st2 : ManagerState) (k : Nat) (v : Task)
    (hn : nodupKeys st.tasks = true) (h : st2.tasks = dput st.tasks k v)
    (hv : ∀ told, dget st.tasks k = some told →
        told.status = v.status ∨ allowed told.status v.status = true) :
    statusStepOk allowed st st2 = true := by
  unfold statusStepOk
  rw [List.all_eq_true]
  intro p hp
  rw [h]
  by_cases hk : p.1 = k
  · rw [hk, dget_dput_self]
    rcases hv p.2 (by rw [← hk]; exact mem_dget st.tasks p.1 p.2 hn hp) with h1 | h1
    · simp [h1]
    · simp [h1]
  · rw [dget_dput_ne _ _ _ _ hk, mem_dget st.tasks p.1 p.2 hn hp]
    simp

theorem Inv_parts (st : ManagerState) (h : Inv st = true) :
    nodupKeys st.tasks = true ∧ taskIdMatch st = true ∧ noTimeout st = true ∧
      inflightRunning st = true := by
  simpa [Inv, Bool.and_eq_true, and_assoc] using h

theorem Inv_eq_of (st st2 : ManagerState) (h1 : st2.tasks = st.tasks)
    (h2 : st2.inflight = st.inflight) : Inv st2 = Inv st := by
  unfold Inv taskIdMatch noTimeout inflightRunning
  rw [h1, h2]

theorem taskIdMatch_of (st st2 : ManagerState) (k : Nat) (v : Task)
    (h : st2.tasks = dput st.tasks k v) (hm : taskIdMatch st = true)
    (hv : v.task_id = k) : taskIdMatch st2 = true := by
  unfold taskIdMatch at hm ⊢
  rw [h]
  exact all_dput _ _ _ _ hm (by simp [hv])

theorem noTimeout_of (st st2 : ManagerState) (k : Nat) (v : Task)
    (h : st2.tasks = dput st.tasks k v) (hm : noTimeout st = true)
    (hv : v.status ≠ TaskStatus.timeout) : noTimeout st2 = true := by
  unfold noTimeout at hm ⊢
  rw [h]
  exact all_dput _ _ _ _ hm (by simp [hv])

theorem inflightRunning_none (st : ManagerState) (h : st.inflight = none) :
    inflightRunning st = true := by
  unfold inflightRunning
  rw [h]

theorem inflightRunning_some (st : ManagerState) (j : Nat)
    (hj : st.inflight = some j) :
    inflightRunning st = true ↔
      ∃ t, dget st.tasks j = some t ∧ t.status = TaskStatus.running := by
  unfold inflightRunning
  rw [hj]
  show (match dget st.tasks j with
        | none => false
        | some t => t.status == TaskStatus.running) = true ↔ _
  cases hg : dget st.tasks j with
  | none => simp
  | some t => simp

theorem inflightRunning_of (st st2 : ManagerState) (k : Nat) (v : Task)
    (h : st2.tasks = dput st.tasks k v) (hifl : st2.inflight = st.inflight)
    (hr : inflightRunning st = true)
    (hk : ∀ j, st.inflight = some j → j ≠ k) : inflightRunning st2 = true := by
  cases hj : st.inflight with
  | none => exact inflightRunning_none st2 (by rw [hifl, hj])
  | some j =>
    obtain ⟨t, hgt, hts⟩ := (inflightRunning_some st j hj).mp hr
    refine (inflightRunning_some st2 j (by rw [hifl, hj])).mpr ?_
    refine ⟨t, ?_, hts⟩
    rw [h, dget_dput_ne _ _ _ _ (hk j hj)]
    exact hgt

theorem dget_task_id (st : ManagerState) (id : Nat) (t : Task)
    (hm : taskIdMatch st = true) (h : dget st.tasks id = some t) :
    t.task_id = id := by
  have := List.all_eq_true.mp hm _ (dget_mem _ _ _ h)
  simpa using this

theorem dget_not_timeout (st : ManagerState) (id : Nat) (t : Task)
    (hm : noTimeout st = true) (h : dget st.tasks id = some t) :
    t.status ≠ TaskStatus.timeout := by
  have := List.all_eq_true.mp hm _ (dget_mem _ _ _ h)
  simpa using this

theorem is_ready_pending (t : Task) (now : Nat) (h : t.is_ready now = true) :
    t.status = TaskStatus.pending ∧ t.scheduled_at ≤ now := by
  unfold Task.is_ready at h
  by_cases h1 : t.status = TaskStatus.pending
  · by_cases h2 : t.scheduled_at > now
    · simp [h1, h2] at h
    · exact ⟨h1, by omega⟩
  · simp [h1] at h

theorem can_retry_iff (t : Task) :
    t.can_retry = true ↔ t.status = TaskStatus.failed ∧ t.retry_count < t.max_retries := by
  unfold Task.can_retry
  simp

theorem get_next_task_tasks (st : ManagerState) (now : Nat) :
    (QueueManager.get_next_task st now).2.tasks = st.tasks ∧
    (QueueManager.get_next_task st now).2.results = st.results ∧
    (QueueManager.get_next_task st now).2.inflight = st.inflight ∧
    (QueueManager.get_next_task st now).2.queue = (getNextLoop st.tasks now st.queue).2 := by
  unfold QueueManager.get_next_task
  cases getNextLoop st.tasks now st.queue with
  | mk r q => simp

theorem get_next_task_some (st : ManagerState) (now : Nat) (t : Task)
    (st2 : ManagerState) (h : QueueManager.get_next_task st now = (some t, st2)) :
    t.is_ready now = true ∧ (∃ e ∈ st.queue, dget st.tasks e.id = some t) ∧
      st2.tasks = st.tasks ∧ st2.inflight = st.inflight := by
  unfold QueueManager.get_next_task at h
  cases hg : getNextLoop st.tasks now st.queue with
  | mk r q =>
    rw [hg] at h
    obtain ⟨h1, h2⟩ := Prod.mk.injEq .. ▸ h
    subst h1
    refine ⟨getNextLoop_some_ready _ _ _ _ _ hg, getNextLoop_some_mem _ _ _ _ _ hg, ?_, ?_⟩ <;>
      rw [← h2]

theorem step_sound (st : ManagerState) (op : Op) (hs : schedOp op = true)
    (hI : Inv st = true) :
    Inv (applyOp st op) = true ∧
    statusStepOk allowedTransitionCancelAny st (applyOp st op) = true := by
  obtain ⟨hn, hm, ht, hf⟩ := Inv_parts st hI
  cases op with
  | submit f p tmo mr sc now =>
    by_cases hq : st.queue.length ≥ st.max_queue_size
    · rw [applyOp, submit_task_full st f p tmo mr sc now hq]
      exact ⟨hI, statusStepOk_tasks_eq _ _ _ hn rfl⟩
    · cases f with
      | notCallable =>
        rw [applyOp, submit_task_notCallable st p tmo mr sc now hq]
        exact ⟨hI, statusStepOk_tasks_eq _ _ _ hn rfl⟩
      | callable b =>
        cases hd : dget st.tasks st.next_id with
        | some t0 =>
          rw [applyOp, submit_task_dup st b p tmo mr sc now hq (by simp [hd])]
          exact ⟨hI, statusStepOk_tasks_eq _ _ _ hn rfl⟩
        | none =>
          rw [applyOp, submit_task_ok st b p tmo mr sc now hq hd]
          constructor
          · simp only [Inv, Bool.and_eq_true]
            refine ⟨⟨⟨?_, ?_⟩, ?_⟩, ?_⟩
            · exact nodupKeys_dput _ _ _ hn
            · exact taskIdMatch_of st _ st.next_id
                (submittedTask (.callable b) p tmo mr sc now st.next_id) rfl hm rfl
            · exact noTimeout_of st _ st.next_id
                (submittedTask (.callable b) p tmo mr sc now st.next_id) rfl ht
                (by simp [submittedTask])
            · refine inflightRunning_of st _ st.next_id
                (submittedTask (.callable b) p tmo mr sc now st.next_id) rfl rfl hf ?_
              intro j hj he
              obtain ⟨tj, hgt, _⟩ := (inflightRunning_some st j hj).mp hf
              rw [he, hd] at hgt
              cases hgt
          · refine statusStepOk_dput _ st _ st.next_id
              (submittedTask (.callable b) p tmo mr sc now st.next_id) hn rfl ?_
            intro told h0
            rw [hd] at h0
            cases h0
  | getNext now =>
    obtain ⟨h1, _, h3, _⟩ := get_next_task_tasks st now
    rw [applyOp]
    constructor
    · rw [Inv_eq_of _ _ h1 h3]
      exact hI
    · exact statusStepOk_tasks_eq _ _ _ hn h1
  | beginNext w now =>
    obtain ⟨h1, _, h3, _⟩ := get_next_task_tasks st now
    cases hr : QueueManager.get_next_task st now with
    | mk r st2 =>
      cases r with
      | none =>
        rw [applyOp, execute_task_begin_none st w now (by rw [hr])]
        constructor
        · rw [Inv_eq_of _ _ h1 h3]
          exact hI
        · exact statusStepOk_tasks_eq _ _ _ hn h1
      | some t =>
        rw [applyOp, execute_task_begin_some st w now t st2 hr]
        obtain ⟨hready, ⟨e, he, hget⟩, htk, hifl⟩ := get_next_task_some st now t st2 hr
        have hpend := (is_ready_pending t now hready).1
        have htid : t.task_id = e.id := dget_task_id st e.id t hm hget
        have hget2 : dget st.tasks t.task_id = some t := by rw [htid]; exact hget
        constructor
        · simp only [Inv, Bool.and_eq_true]
          refine ⟨⟨⟨?_, ?_⟩, ?_⟩, ?_⟩
          · rw [htk]; exact nodupKeys_dput _ _ _ hn
          · exact taskIdMatch_of st _ t.task_id
              { t with worker_id := some w, status := .running } (by rw [htk]) hm rfl
          · exact noTimeout_of st _ t.task_id
              { t with worker_id := some w, status := .running } (by rw [htk]) ht (by simp)
          · refine (inflightRunning_some _ t.task_id rfl).mpr ?_
            refine ⟨{ t with worker_id := some w, status := .running }, ?_, rfl⟩
            show dget (dput st2.tasks t.task_id _) t.task_id = _
            rw [htk, dget_dput_self]
        · refine statusStepOk_dput _ st _ t.task_id
            { t with worker_id := some w, status := .running } hn (by rw [htk]) ?_
          intro told h0
          rw [hget2] at h0
          cases h0
          right
          rw [hpend]
          rfl
  | finish s e2 =>
    cases hifl : st.inflight with
    | none =>
      rw [applyOp, execute_task_finish_none st s e2 hifl]
      exact ⟨hI, statusStepOk_tasks_eq _ _ _ hn rfl⟩
    | some id =>
      cases hg : dget st.tasks id with
      | none =>
        rw [applyOp, execute_task_finish_miss st s e2 id hifl hg]
        constructor
        · simp only [Inv, Bool.and_eq_true]
          exact ⟨⟨⟨hn, hm⟩, ht⟩, inflightRunning_none _ rfl⟩
        · exact statusStepOk_tasks_eq _ _ _ hn rfl
      | some t =>
        have hrun : t.status = TaskStatus.running := by
          obtain ⟨tj, hgt, hts⟩ := (inflightRunning_some st id hifl).mp hf
          rw [hg] at hgt
          cases hgt
          exact hts
        have htid : t.task_id = id := dget_task_id st id t hm hg
        obtain ⟨hterm, hid1, _⟩ := execute_facts t s e2
        rw [applyOp, execute_task_finish_some st s e2 id t hifl hg]
        constructor
        · simp only [Inv, Bool.and_eq_true]
          refine ⟨⟨⟨?_, ?_⟩, ?_⟩, ?_⟩
          · exact nodupKeys_dput _ _ _ hn
          · exact taskIdMatch_of st _ t.task_id
              { (Task.execute t s e2).1 with worker_id := none } rfl hm (by simpa using hid1)
          · refine noTimeout_of st _ t.task_id
              { (Task.execute t s e2).1 with worker_id := none } rfl ht ?_
            rcases hterm with h1 | h1 <;> simp [h1]
          · exact inflightRunning_none _ rfl
        · refine statusStepOk_dput _ st _ t.task_id
            { (Task.execute t s e2).1 with worker_id := none } hn rfl ?_
          intro told h0
          rw [htid, hg] at h0
          cases h0
          right
          rcases hterm with h1 | h1 <;>
            simp [hrun, h1, allowedTransitionCancelAny, allowedTransition]
  | cancel id =>
    cases hg : dget st.tasks id with
    | none =>
      rw [applyOp, cancel_task_none st id hg]
      exact ⟨hI, statusStepOk_tasks_eq _ _ _ hn rfl⟩
    | some t =>
      by_cases hr : t.status = TaskStatus.running
      · rw [applyOp, cancel_task_running st id t hg hr]
        exact ⟨hI, statusStepOk_tasks_eq _ _ _ hn rfl⟩
      · rw [applyOp, cancel_task_ok st id t hg hr]
        have htid : t.task_id = id := dget_task_id st id t hm hg
        constructor
        · simp only [Inv, Bool.and_eq_true]
          refine ⟨⟨⟨?_, ?_⟩, ?_⟩, ?_⟩
          · exact nodupKeys_dput _ _ _ hn
          · exact taskIdMatch_of st _ id { t with status := .cancelled } rfl hm
              (by simpa using htid)
          · exact noTimeout_of st _ id { t with status := .cancelled } rfl ht (by simp)
          · refine inflightRunning_of st _ id { t with status := .cancelled } rfl rfl hf ?_
            intro j hj he
            obtain ⟨tj, hgt, hts⟩ := (inflightRunning_some st j hj).mp hf
            rw [he, hg] at hgt
            cases hgt
            exact hr hts
        · refine statusStepOk_dput _ st _ id { t with status := .cancelled } hn rfl ?_
          intro told h0
          rw [hg] at h0
          cases h0
          have hnt := dget_not_timeout st id t ht hg
          cases hst : t.status with
          | pending => right; simp [hst, allowedTransitionCancelAny, allowedTransition]
          | running => exact absurd hst hr
          | completed => right; simp [hst, allowedTransitionCancelAny]
          | failed => right; simp [hst, allowedTransitionCancelAny]
          | cancelled => left; simp [hst]
          | timeout => exact absurd hst hnt
  | retry id =>
    cases hg : dget st.tasks id with
    | none =>
      rw [applyOp, retry_task_none st id hg]
      exact ⟨hI, statusStepOk_tasks_eq _ _ _ hn rfl⟩
    | some t =>
      cases hc : t.can_retry with
      | false =>
        rw [applyOp, retry_task_noRetry st id t hg hc]
        exact ⟨hI, statusStepOk_tasks_eq _ _ _ hn rfl⟩
      | true =>
        rw [applyOp, retry_task_ok st id t hg hc]
        have hfl := ((can_retry_iff t).mp hc).1
        have htid : t.task_id = id := dget_task_id st id t hm hg
        constructor
        · simp only [Inv, Bool.and_eq_true]
          refine ⟨⟨⟨?_, ?_⟩, ?_⟩, ?_⟩
          · exact nodupKeys_dput _ _ _ hn
          · exact taskIdMatch_of st _ id (resetTask t) rfl hm
              (by simpa [resetTask] using htid)
          · exact noTimeout_of st _ id (resetTask t) rfl ht (by simp [resetTask])
          · refine inflightRunning_of st _ id (resetTask t) rfl rfl hf ?_
            intro j hj he
            obtain ⟨tj, hgt, hts⟩ := (inflightRunning_some st j hj).mp hf
            rw [he, hg] at hgt
            cases hgt
            rw [hfl] at hts
            cases hts
        · refine statusStepOk_dput _ st _ id (resetTask t) hn rfl ?_
          intro told h0
          rw [hg] at h0
          cases h0
          right
          simp [hfl, resetTask, allowedTransitionCancelAny, allowedTransition]
  | updateStatus id s2 =>
    simp [schedOp] at hs

theorem Inv_initState (mx : Nat) : Inv (initState mx) = true := rfl

theorem opTrace_shape (st : ManagerState) (ops : List Op) :
    ∃ rest, opTrace st ops = st :: rest := by
  cases ops with
  | nil => exact ⟨[], rfl⟩
  | cons op ops => exact ⟨opTrace (applyOp st op) ops, rfl⟩

theorem traceOk_opTrace (st : ManagerState) (ops : List Op)
    (hI : Inv st = true) (hs : ops.all schedOp = true) :
    traceOk allowedTransitionCancelAny (opTrace st ops) = true := by
  induction ops generalizing st with
  | nil => simp [opTrace, traceOk]
  | cons op ops ih =>
    simp only [List.all_cons, Bool.and_eq_true] at hs
    obtain ⟨hInv2, hstep⟩ := step_sound st op hs.1 hI
    have htail := ih (applyOp st op) hInv2 hs.2
    obtain ⟨rest, hrest⟩ := opTrace_shape (applyOp st op) ops
    rw [opTrace, hrest]
    rw [hrest] at htail
    simp only [traceOk, Bool.and_eq_true]
    exact ⟨hstep, htail⟩

/-- After a pending task has been cancelled: it stays CANCELLED, it is in
neither the heap nor the in-flight slot, and its results entry keeps the
value it had. -/
def cancelledSafe (id : Nat) (r0 : Option TaskResult) (st : ManagerState) : Prop :=
  (∃ t, dget st.tasks id = some t ∧ t.status = TaskStatus.cancelled) ∧
  (∀ e ∈ st.queue, e.id ≠ id) ∧ st.inflight ≠ some id ∧ dget st.results id = r0

theorem cancelledSafe_step (st : ManagerState) (op : Op) (id : Nat)
    (r0 : Option TaskResult) (hs : schedOp op = true) (hI : Inv st = true)
    (hc : cancelledSafe id r0 st) : cancelledSafe id r0 (applyOp st op) := by
  obtain ⟨hn, hm, ht, hf⟩ := Inv_parts st hI
  obtain ⟨⟨tc, htc, hcst⟩, hq, hifl, hres⟩ := hc
  cases op with
  | submit f p tmo mr sc now =>
    by_cases hfull : st.queue.length ≥ st.max_queue_size
    · rw [applyOp, submit_task_full st f p tmo mr sc now hfull]
      exact ⟨⟨tc, htc, hcst⟩, hq, hifl, hres⟩
    · cases f with
      | notCallable =>
        rw [applyOp, submit_task_notCallable st p tmo mr sc now hfull]
        exact ⟨⟨tc, htc, hcst⟩, hq, hifl, hres⟩
      | callable b =>
        cases hd : dget st.tasks st.next_id with
        | some t0 =>
          rw [applyOp, submit_task_dup st b p tmo mr sc now hfull (by simp [hd])]
          exact ⟨⟨tc, htc, hcst⟩, hq, hifl, hres⟩
        | none =>
          rw [applyOp, submit_task_ok st b p tmo mr sc now hfull hd]
          have hne : id ≠ st.next_id := by
            intro he
            rw [he, hd] at htc
            cases htc
          refine ⟨⟨tc, ?_, hcst⟩, ?_, hifl, hres⟩
          · show dget (dput st.tasks st.next_id _) id = some tc
            rw [dget_dput_ne _ _ _ _ hne]
            exact htc
          · intro e he
            rcases heappush_mem _ e _ he with h1 | h1
            · rw [h1]
              intro hh
              apply hne
              simp only [Task.entry, submittedTask] at hh
              exact hh.symm
            · exact hq e h1
  | getNext now =>
    obtain ⟨h1, h2, h3, h4⟩ := get_next_task_tasks st now
    rw [applyOp]
    refine ⟨⟨tc, by rw [h1]; exact htc, hcst⟩, ?_, by rw [h3]; exact hifl,
            by rw [h2]; exact hres⟩
    intro e he
    rw [h4] at he
    exact hq e (getNextLoop_queue_sub _ _ _ _ he)
  | beginNext w now =>
    cases hr : QueueManager.get_next_task st now with
    | mk r st2 =>
      cases r with
      | none =>
        rw [applyOp, execute_task_begin_none st w now (by rw [hr])]
        obtain ⟨h1, h2, h3, h4⟩ := get_next_task_tasks st now
        show cancelledSafe id r0 (QueueManager.get_next_task st now).2
        refine ⟨⟨tc, by rw [h1]; exact htc, hcst⟩, ?_, by rw [h3]; exact hifl,
                by rw [h2]; exact hres⟩
        intro e he
        rw [h4] at he
        exact hq e (getNextLoop_queue_sub _ _ _ _ he)
      | some t =>
        rw [applyOp, execute_task_begin_some st w now t st2 hr]
        obtain ⟨hready, ⟨e0, he0, hget⟩, htk, hifl2⟩ := get_next_task_some st now t st2 hr
        have htid : t.task_id = e0.id := dget_task_id st e0.id t hm hget
        have hne : id ≠ t.task_id := by
          rw [htid]
          exact fun hh => hq e0 he0 hh.symm
        obtain ⟨h1, h2, h3, h4⟩ := get_next_task_tasks st now
        rw [hr] at h1 h2 h3 h4
        have h2' : st2.results = st.results := h2
        have h4' : st2.queue = (getNextLoop st.tasks now st.queue).2 := h4
        refine ⟨⟨tc, ?_, hcst⟩, ?_, ?_, ?_⟩
        · show dget (dput st2.tasks t.task_id _) id = some tc
          rw [htk, dget_dput_ne _ _ _ _ hne]
          exact htc
        · intro e he
          have he2 : e ∈ st2.queue := he
          rw [h4'] at he2
          exact hq e (getNextLoop_queue_sub _ _ _ _ he2)
        · intro hh
          have hh2 : some t.task_id = some id := hh
          exact hne (Option.some_inj.mp hh2).symm
        · show dget st2.results id = r0
          rw [h2']
          exact hres
  | finish s e2 =>
    cases hfl2 : st.inflight with
    | none =>
      rw [applyOp, execute_task_finish_none st s e2 hfl2]
      exact ⟨⟨tc, htc, hcst⟩, hq, hifl, hres⟩
    | some j =>
      have hjne : j ≠ id := by
        intro he
        rw [he] at hfl2
        exact hifl hfl2
      cases hg : dget st.tasks j with
      | none =>
        rw [applyOp, execute_task_finish_miss st s e2 j hfl2 hg]
        exact ⟨⟨tc, htc, hcst⟩, hq, by simp, hres⟩
      | some t =>
        have htid : t.task_id = j := dget_task_id st j t hm hg
        obtain ⟨_, _, hid2⟩ := execute_facts t s e2
        rw [applyOp, execute_task_finish_some st s e2 j t hfl2 hg]
        refine ⟨⟨tc, ?_, hcst⟩, hq, by simp, ?_⟩
        · show dget (dput st.tasks t.task_id _) id = some tc
          rw [dget_dput_ne _ _ _ _ (by rw [htid]; exact fun hh => hjne hh.symm)]
          exact htc
        · show dget (dput st.results (Task.execute t s e2).2.task_id _) id = r0
          rw [dget_dput_ne _ _ _ _ (by rw [hid2, htid]; exact fun hh => hjne hh.symm)]
          exact hres
  | cancel id2 =>
    cases hg : dget st.tasks id2 with
    | none =>
      rw [applyOp, cancel_task_none st id2 hg]
      exact ⟨⟨tc, htc, hcst⟩, hq, hifl, hres⟩
    | some t =>
      by_cases hrun : t.status = TaskStatus.running
      · rw [applyOp, cancel_task_running st id2 t hg hrun]
        exact ⟨⟨tc, htc, hcst⟩, hq, hifl, hres⟩
      · rw [applyOp, cancel_task_ok st id2 t hg hrun]
        refine ⟨?_, ?_, hifl, hres⟩
        · by_cases he : id = id2
          · subst he
            exact ⟨{ t with status := .cancelled }, by rw [dget_dput_self], rfl⟩
          · exact ⟨tc, by rw [dget_dput_ne _ _ _ _ he]; exact htc, hcst⟩
        · intro e he
          exact hq e (List.mem_of_mem_filter he)
  | retry id2 =>
    cases hg : dget st.tasks id2 with
    | none =>
      rw [applyOp, retry_task_none st id2 hg]
      exact ⟨⟨tc, htc, hcst⟩, hq, hifl, hres⟩
    | some t =>
      cases hcr : t.can_retry with
      | false =>
        rw [applyOp, retry_task_noRetry st id2 t hg hcr]
        exact ⟨⟨tc, htc, hcst⟩, hq, hifl, hres⟩
      | true =>
        have hne : id ≠ id2 := by
          intro he
          rw [← he, htc] at hg
          have hteq : tc = t := Option.some_inj.mp hg
          have hcr2 := ((can_retry_iff t).mp hcr).1
          rw [← hteq, hcst] at hcr2
          cases hcr2
        have htid : t.task_id = id2 := dget_task_id st id2 t hm hg
        rw [applyOp, retry_task_ok st id2 t hg hcr]
        refine ⟨⟨tc, by rw [dget_dput_ne _ _ _ _ hne]; exact htc, hcst⟩, ?_, hifl, hres⟩
        intro e he
        rcases heappush_mem _ e _ he with h1 | h1
        · rw [h1]
          show t.task_id ≠ id
          rw [htid]
          exact fun hh => hne hh.symm
        · exact hq e h1
  | updateStatus id2 s2 =>
    simp [schedOp] at hs

theorem cancelledSafe_runOps (st : ManagerState) (ops : List Op) (id : Nat)
    (r0 : Option TaskResult) (hs : ops.all schedOp = true) (hI : Inv st = true)
    (hc : cancelledSafe id r0 st) : cancelledSafe id r0 (runOps st ops) := by
  induction ops generalizing st with
  | nil => exact hc
  | cons op ops ih =>
    simp only [List.all_cons, Bool.and_eq_true] at hs
    exact ih (applyOp st op) hs.2 (step_sound st op hs.1 hI).1
      (cancelledSafe_step st op id r0 hs.1 hI hc)

/-- Dispatch order on heap keys: strictly higher priority value first,
ties not created later. -/
def entryOrdered (e f : HeapEntry) : Prop :=
  e.prio > f.prio ∨ (e.prio = f.prio ∧ e.created ≤ f.created)

theorem not_lt_iff (e f : HeapEntry) :
    (!HeapEntry.lt f e) = true ↔ entryOrdered e f := by
  by_cases h : f.prio = e.prio
  · simp [HeapEntry.lt, entryOrdered, h]
  · simp [HeapEntry.lt, entryOrdered, h]
    omega

theorem entryOrdered_trans (a b c : HeapEntry) (h1 : entryOrdered a b)
    (h2 : entryOrdered b c) : entryOrdered a c := by
  unfold entryOrdered at h1 h2 ⊢
  omega

theorem sortedEntries_pairwise (l : List HeapEntry)
    (h : sortedEntries l = true) : l.Pairwise entryOrdered := by
  induction l with
  | nil => simp
  | cons e rest ih =>
    cases rest with
    | nil => simp
    | cons f rest2 =>
      have h1 : (!HeapEntry.lt f e) = true ∧ sortedEntries (f :: rest2) = true := by
        simpa [sortedEntries, Bool.and_eq_true] using h
      have hp2 := ih h1.2
      refine List.Pairwise.cons ?_ hp2
      intro g hg
      rcases List.mem_cons.mp hg with rfl | hg2
      · exact (not_lt_iff e g).mp h1.1
      · exact entryOrdered_trans e f g ((not_lt_iff e f).mp h1.1)
          ((List.pairwise_cons.mp hp2).1 g hg2)

theorem entryReadyWf_elim (tasks : List (Nat × Task)) (now : Nat) (e : HeapEntry)
    (h : entryReadyWf tasks now e = true) :
    ∃ t, dget tasks e.id = some t ∧ t.is_ready now = true ∧
      e.prio = t.priority.value ∧ e.created = t.created_at := by
  unfold entryReadyWf at h
  cases hg : dget tasks e.id with
  | none => rw [hg] at h; cases h
  | some t =>
    rw [hg] at h
    simp only [Bool.and_eq_true, beq_iff_eq] at h
    exact ⟨t, rfl, h.1.1, h.1.2, h.2⟩

theorem drain_all_ready (q : List HeapEntry) (st : ManagerState) (now : Nat)
    (hq : st.queue = q) (hr : q.all (entryReadyWf st.tasks now) = true) :
    drainN st now q.length = q.filterMap (fun e => dget st.tasks e.id) := by
  induction q generalizing st with
  | nil => simp [drainN]
  | cons e rest ih =>
    simp only [List.all_cons, Bool.and_eq_true] at hr
    obtain ⟨t, hg, hready, _, _⟩ := entryReadyWf_elim st.tasks now e hr.1
    have hstep := get_next_task_ready st now e rest t hq hg hready
    rw [List.length_cons, drainN, hstep]
    show t :: drainN { st with queue := rest } now rest.length =
      List.filterMap (fun e => dget st.tasks e.id) (e :: rest)
    rw [@List.filterMap_cons_some HeapEntry Task (fun e => dget st.tasks e.id) e rest t hg]
    rw [ih { st with queue := rest } rfl hr.2]

theorem pairwise_filterMap_tasks (tasks : List (Nat × Task)) (now : Nat)
    (q : List HeapEntry) (hr : q.all (entryReadyWf tasks now) = true)
    (hp : q.Pairwise entryOrdered) :
    (q.filterMap (fun e => dget tasks e.id)).Pairwise taskOrdered := by
  induction q with
  | nil => simp
  | cons e rest ih =>
    simp only [List.all_cons, Bool.and_eq_true] at hr
    obtain ⟨hp1, hp2⟩ := List.pairwise_cons.mp hp
    obtain ⟨t, hg, _, hprio, hcrea⟩ := entryReadyWf_elim tasks now e hr.1
    rw [@List.filterMap_cons_some HeapEntry Task (fun e => dget tasks e.id) e rest t hg]
    refine List.Pairwise.cons ?_ (ih hr.2 hp2)
    intro u hu
    obtain ⟨f, hf, hgf⟩ := List.mem_filterMap.mp hu
    obtain ⟨u2, hgu, _, hprio2, hcrea2⟩ := entryReadyWf_elim tasks now f
      (List.all_eq_true.mp hr.2 f hf)
    rw [hgf] at hgu
    have hu2 : u2 = u := (Option.some_inj.mp hgu).symm
    have hef : entryOrdered e f := hp1 f hf
    unfold entryOrdered at hef
    unfold taskOrdered
    rw [← hu2, ← hprio, ← hcrea, ← hprio2, ← hcrea2]
    exact hef

/-- A callable returning the Python value 7. -/
def okFunc : PyFunc := .callable (.ok (some 7))

/-- A callable returning the Python value None. -/
def noneFunc : PyFunc := .callable (.ok none)

/-- A callable that raises an exception with message "boom". -/
def failFunc : PyFunc := .callable (.error "boom")

/-- Submission with default timeout, retries and schedule at instant `now`. -/
def submitOp (f : PyFunc) (p : TaskPriority) (now : Nat) : Op :=
  .submit f p none 3 none now

/-- Three immediately-ready tasks submitted with priorities LOW, HIGH,
NORMAL at instants 0, 1, 2. -/
def st1 : ManagerState :=
  runOps (initState 1000)
    [submitOp okFunc .low 0, submitOp okFunc .high 1, submitOp okFunc .normal 2]

/-- The HIGH task returned by the first drain of `st1`. -/
def tH : Task :=
  { func := okFunc, task_id := 1, priority := .high, timeout := none,
    retry_count := 0, max_retries := 3, created_at := 1, scheduled_at := 1,
    status := .pending, result := none, worker_id := none }

/-- Two equal-priority ready tasks, the first submitted earlier. -/
def st1t : ManagerState :=
  runOps (initState 1000) [submitOp okFunc .normal 0, submitOp okFunc .normal 1]

/-- A HIGH task whose status was forced to CANCELLED through the registry
status write while it was still in the heap, in front of a ready LOW
task. -/
def st2C2 : ManagerState :=
  runOps (initState 1000)
    [submitOp okFunc .high 0, submitOp okFunc .low 1, .updateStatus 0 .cancelled]

/-- A HIGH task scheduled for instant 10 (pending, not yet ready) in front
of an immediately-ready LOW task. -/
def st2b : ManagerState :=
  runOps (initState 1000)
    [.submit okFunc .high none 3 (some 10) 0, submitOp okFunc .low 1]

/-- The future-scheduled HIGH task at the top of the heap of `st2b`. -/
def t0fut : Task :=
  { func := okFunc, task_id := 0, priority := .high, timeout := none,
    retry_count := 0, max_retries := 3, created_at := 0, scheduled_at := 10,
    status := .pending, result := none, worker_id := none }

/-- C1: among simultaneously ready tasks, successive single-threaded
`get_next_task` calls drain the whole queue in heap order, and that order
is strictly priority-descending, ties broken by not-later creation time:
for a queue whose entries are all ready, registered and key-consistent
(`entryReadyWf`) and sorted by the heap comparator (`sortedEntries`,
which `heappush` maintains), draining returns exactly the queued tasks,
pairwise in dispatch order. -/
theorem C1_dispatch_order (st : ManagerState) (now : Nat)
    (hwf : st.queue.all (entryReadyWf st.tasks now) = true)
    (hsort : sortedEntries st.queue = true) :
    drainN st now st.queue.length = queueTasks st ∧
    (queueTasks st).Pairwise taskOrdered := by
  constructor
  · exact drain_all_ready st.queue st now rfl hwf
  · exact pairwise_filterMap_tasks st.tasks now st.queue hwf
      (sortedEntries_pairwise _ hsort)

/-- C1 witness: tasks submitted with priorities [LOW, HIGH, NORMAL], all
ready, are returned in order HIGH, NORMAL, LOW (task ids 1, 2, 0); two
equal-priority tasks are returned in submission order. -/
theorem C1_dispatch_order_witness :
    (st1.queue.all (entryReadyWf st1.tasks 5) = true ∧
      sortedEntries st1.queue = true) ∧
    (drainN st1 5 st1.queue.length = queueTasks st1 ∧
      (queueTasks st1).Pairwise taskOrdered) ∧
    (drainN st1 5 st1.queue.length).map Task.priority = [.high, .normal, .low] ∧
    (drainN st1 5 st1.queue.length).map Task.task_id = [1, 2, 0] ∧
    (drainN st1t 5 st1t.queue.length).map Task.task_id = [0, 1] :=
  ⟨⟨by decide, by decide⟩, C1_dispatch_order st1 5 (by decide) (by decide),
   by decide, by decide, by decide⟩

/-- C2 counterexample: in `st2C2` the heap top references task 0, which is
not ready (status CANCELLED), yet `get_next_task` does not re-insert it
and return None: it discards the top, scans on, and returns the ready
lower-priority task 1. -/
theorem C2_head_of_line_counterexample :
    st2C2.queue.map HeapEntry.id = [0, 1] ∧
    (dget st2C2.tasks 0).map (fun t => t.is_ready 5) = some false ∧
    (dget st2C2.tasks 0).map Task.priority = some .high ∧
    (dget st2C2.tasks 1).map (fun t => t.is_ready 5) = some true ∧
    (QueueManager.get_next_task st2C2 5).1.map Task.task_id = some 1 := by
  decide

/-- C2 amended: when the top task is PENDING but not yet ready,
`get_next_task` re-inserts it and returns None immediately without
scanning past it; a top task that is not ready because its status is not
PENDING is instead dropped from the heap and scanning continues with the
rest of the queue. -/
theorem C2_head_of_line_amended (st : ManagerState) (now : Nat) (e : HeapEntry)
    (rest : List HeapEntry) (t : Task) (h : st.queue = e :: rest)
    (hg : dget st.tasks e.id = some t) (hnr : t.is_ready now = false) :
    (t.status = TaskStatus.pending →
      QueueManager.get_next_task st now = (none, { st with queue := heappush e rest })) ∧
    (t.status ≠ TaskStatus.pending →
      QueueManager.get_next_task st now =
        QueueManager.get_next_task { st with queue := rest } now) := by
  constructor
  · intro hp
    exact get_next_task_blocked st now e rest t h hg hnr hp
  · intro hp
    exact get_next_task_skip st now e rest t h hg hnr hp

/-- C2 amended witness: with a future-scheduled HIGH task on top of a
ready LOW task, `get_next_task` re-inserts the top and returns None. -/
theorem C2_head_of_line_amended_witness :
    QueueManager.get_next_task st2b 5 =
      (none, { st2b with queue := heappush ⟨3, 0, 0⟩ [⟨1, 1, 1⟩] }) :=
  (C2_head_of_line_amended st2b 5 ⟨3, 0, 0⟩ [⟨1, 1, 1⟩] t0fut (by decide)
    (by decide) (by decide)).1 (by decide)

/-- C3: `get_next_task` never returns a task that is not ready: any task
it returns passed `is_ready` at the check instant, so its status is
PENDING and its scheduled time has arrived — in particular a
future-scheduled task is never returned before its time. -/
theorem C3_only_ready_returned (st : ManagerState) (now : Nat) (t : Task)
    (st2 : ManagerState) (h : QueueManager.get_next_task st now = (some t, st2)) :
    t.is_ready now = true ∧ t.status = TaskStatus.pending ∧ t.scheduled_at ≤ now := by
  have hr := (get_next_task_some st now t st2 h).1
  exact ⟨hr, (is_ready_pending t now hr).1, (is_ready_pending t now hr).2⟩

/-- C3 witness: the task popped from `st1` at instant 5 is ready, PENDING
and due. -/
theorem C3_only_ready_returned_witness :
    tH.is_ready 5 = true ∧ tH.status = TaskStatus.pending ∧ tH.scheduled_at ≤ 5 :=
  C3_only_ready_returned st1 5 tH (QueueManager.get_next_task st1 5).2 (by decide)

/-- Submit of an always-failing task, then one worker cycle that runs it
to FAILED. -/
def ops4 : List Op :=
  [.submit failFunc .normal none 3 none 0, .beginNext 9 1, .finish 1 2]

/-- State after `ops4`: task 0 is FAILED. -/
def st4a : ManagerState := runOps (initState 1000) ops4

/-- Submit of an always-failing task with `max_retries = 2`. -/
def subFOp : Op := .submit failFunc .normal none 2 none 0

/-- One worker cycle (acquire, then run to completion). -/
def cycOps (s e2 : Nat) : List Op := [Op.beginNext 9 s, Op.finish s e2]

/-- The `max_retries = 2` task after failing, being retried twice, and
failing both retries: retry budget exhausted. -/
def stR : ManagerState :=
  runOps (initState 1000)
    ([subFOp] ++ cycOps 1 2 ++ [.retry 0] ++ cycOps 3 4 ++ [.retry 0] ++ cycOps 5 6)

/-- The same task after its first failure: one retry still allowed. -/
def stR1 : ManagerState := runOps (initState 1000) ([subFOp] ++ cycOps 1 2)

/-- One immediately-ready NORMAL task, still PENDING. -/
def st5 : ManagerState := runOps (initState 1000) [submitOp okFunc .normal 0]

/-- The PENDING task registered in `st5`. -/
def t5 : Task :=
  { func := okFunc, task_id := 0, priority := .normal, timeout := none,
    retry_count := 0, max_retries := 3, created_at := 0, scheduled_at := 0,
    status := .pending, result := none, worker_id := none }

/-- C4 counterexample: the transition FAILED → CANCELLED, absent from the
claimed transition relation, is reachable with the listed operations:
after `ops4` task 0 is FAILED, and `cancel_task` then sets it CANCELLED
(the code cancels any non-RUNNING task), so the trace fails the claimed
transition check. -/
theorem C4_transitions_counterexample :
    (dget st4a.tasks 0).map Task.status = some .failed ∧
    (dget (applyOp st4a (.cancel 0)).tasks 0).map Task.status = some .cancelled ∧
    allowedTransition .failed .cancelled = false ∧
    traceOk allowedTransition (opTrace (initState 1000) (ops4 ++ [.cancel 0])) = false := by
  decide

/-- C4 amended: along every sequence of the scheduler/worker operations
(submit, get_next_task, worker execution, cancel, retry — excluding the
raw registry status write `update_task_status`, which can set any
status), every task status change follows PENDING → RUNNING →
(COMPLETED or FAILED), PENDING → CANCELLED, FAILED → PENDING (retry), or
the additional COMPLETED/FAILED → CANCELLED edges that `cancel_task`
performs on any non-RUNNING task. -/
theorem C4_transitions_amended (mx : Nat) (ops : List Op)
    (hs : ops.all schedOp = true) :
    traceOk allowedTransitionCancelAny (opTrace (initState mx) ops) = true :=
  traceOk_opTrace (initState mx) ops (Inv_initState mx) hs

/-- C4 amended witness: the submit/run/fail/cancel trace passes the
amended transition check. -/
theorem C4_transitions_amended_witness :
    (ops4 ++ [Op.cancel 0]).all schedOp = true ∧
    traceOk allowedTransitionCancelAny
      (opTrace (initState 1000) (ops4 ++ [Op.cancel 0])) = true :=
  ⟨by decide, C4_transitions_amended 1000 (ops4 ++ [Op.cancel 0]) (by decide)⟩

/-- C5: `cancel_task` on a RUNNING task returns false and leaves the
state unchanged; on a PENDING task it returns true, marks the task
CANCELLED, removes it from the heap, and afterwards no sequence of
scheduler/worker operations (the registry status write excluded) ever
creates or stores a TaskResult for it: its results entry stays exactly
what it was. -/
theorem C5_cancel_semantics (st : ManagerState) (id : Nat) (t : Task)
    (hI : Inv st = true) (hg : dget st.tasks id = some t) :
    (t.status = TaskStatus.running → QueueManager.cancel_task st id = (false, st)) ∧
    (t.status = TaskStatus.pending →
      (QueueManager.cancel_task st id).1 = true ∧
      (dget (QueueManager.cancel_task st id).2.tasks id).map Task.status =
        some TaskStatus.cancelled ∧
      (∀ e ∈ (QueueManager.cancel_task st id).2.queue, e.id ≠ id) ∧
      (∀ ops, ops.all schedOp = true →
        dget (runOps (QueueManager.cancel_task st id).2 ops).results id =
          dget st.results id)) := by
  constructor
  · intro hr
    exact cancel_task_running st id t hg hr
  · intro hp
    have hnr : ¬ t.status = TaskStatus.running := by rw [hp]; intro hh; cases hh
    have hco := cancel_task_ok st id t hg hnr
    have hifl : st.inflight ≠ some id := by
      intro hin
      obtain ⟨tj, hgt, hts⟩ :=
        (inflightRunning_some st id hin).mp (Inv_parts st hI).2.2.2
      rw [hg] at hgt
      rw [← Option.some_inj.mp hgt, hp] at hts
      cases hts
    have hsafe : cancelledSafe id (dget st.results id) (QueueManager.cancel_task st id).2 := by
      rw [hco]
      refine ⟨⟨{ t with status := .cancelled }, ?_, rfl⟩, ?_, hifl, rfl⟩
      · show dget (dput st.tasks id _) id = _
        rw [dget_dput_self]
      · intro e he
        have := (List.mem_filter.mp he).2
        simpa using this
    refine ⟨by rw [hco], ?_, ?_, ?_⟩
    · rw [hco]
      show (dget (dput st.tasks id { t with status := .cancelled }) id).map Task.status = _
      rw [dget_dput_self]
      rfl
    · rw [hco]
      intro e he
      have := (List.mem_filter.mp he).2
      simpa using this
    · intro ops hops
      have hI2 : Inv (QueueManager.cancel_task st id).2 = true :=
        (step_sound st (.cancel id) rfl hI).1
      exact (cancelledSafe_runOps _ ops id (dget st.results id) hops hI2 hsafe).2.2.2

/-- C5 witness: cancelling the pending task of `st5` returns true, and a
subsequent worker cycle still stores no result for it. -/
theorem C5_cancel_semantics_witness :
    (QueueManager.cancel_task st5 0).1 = true ∧
    dget (runOps (QueueManager.cancel_task st5 0).2 (cycOps 5 6)).results 0 =
      dget st5.results 0 ∧
    dget st5.results 0 = none := by
  have h := (C5_cancel_semantics st5 0 t5 (by decide) (by decide)).2 (by decide)
  exact ⟨h.1, h.2.2.2 (cycOps 5 6) (by decide), by decide⟩

/-- C6: `retry_task` returns true exactly when the task exists, is FAILED
and has retries left; on success it increments `retry_count`, resets the
task to PENDING, clears `worker_id` and the stored result, and re-pushes
the task onto the heap; on failure the state is unchanged. -/
theorem C6_retry_spec (st : ManagerState) (id : Nat) :
    ((QueueManager.retry_task st id).1 = true ↔
      ∃ t, dget st.tasks id = some t ∧ t.status = TaskStatus.failed ∧
        t.retry_count < t.max_retries) ∧
    (∀ t, dget st.tasks id = some t → t.status = TaskStatus.failed →
      t.retry_count < t.max_retries →
      QueueManager.retry_task st id =
        (true, { st with tasks := dput st.tasks id (resetTask t),
                         queue := heappush (Task.entry (resetTask t)) st.queue })) ∧
    ((QueueManager.retry_task st id).1 = false →
      (QueueManager.retry_task st id).2 = st) := by
  refine ⟨?_, ?_, ?_⟩
  · cases hg : dget st.tasks id with
    | none => simp [retry_task_none st id hg, hg]
    | some t =>
      cases hc : t.can_retry with
      | false =>
        rw [retry_task_noRetry st id t hg hc]
        simp only [hg, Option.some_inj]
        constructor
        · intro h
          cases h
        · rintro ⟨t2, ht2, h1, h2⟩
          have := (can_retry_iff t).mpr ⟨ht2 ▸ h1, ht2 ▸ h2⟩
          rw [hc] at this
          cases this
      | true =>
        rw [retry_task_ok st id t hg hc]
        simp only [hg, Option.some_inj, true_iff]
        exact ⟨t, rfl, ((can_retry_iff t).mp hc).1, ((can_retry_iff t).mp hc).2⟩
  · intro t hg h1 h2
    exact retry_task_ok st id t hg ((can_retry_iff t).mpr ⟨h1, h2⟩)
  · intro hfalse
    cases hg : dget st.tasks id with
    | none => rw [retry_task_none st id hg]
    | some t =>
      cases hc : t.can_retry with
      | false => rw [retry_task_noRetry st id t hg hc]
      | true =>
        rw [retry_task_ok st id t hg hc] at hfalse
        cases hfalse

/-- C6 witness: a `max_retries = 2` task that always fails is retried
exactly twice; after the second retry fails, the task is FAILED with
`retry_count = 2`, a further retry returns false and the state is
untouched. -/
theorem C6_retry_spec_witness :
    (dget stR.tasks 0).map Task.status = some .failed ∧
    (dget stR.tasks 0).map Task.retry_count = some 2 ∧
    (QueueManager.retry_task stR1 0).1 = true ∧
    (QueueManager.retry_task stR 0).1 = false ∧
    (QueueManager.retry_task stR 0).2 = stR :=
  ⟨by decide, by decide, by decide, by decide,
   (C6_retry_spec stR 0).2.2 (by decide)⟩

/-- C7: `Task.execute` is total (the embedding returns a value for every
outcome of the callable, mirroring the `try`/`except` that never lets an
exception escape): a raising callable yields a FAILED TaskResult carrying
the exception message and marks the task FAILED; a returning callable
yields a COMPLETED TaskResult carrying the return value. -/
theorem C7_execute_contains_errors (t : Task) (s e2 : Nat) :
    (∀ msg, t.func = .callable (.error msg) →
      (Task.execute t s e2).2.status = TaskStatus.failed ∧
      (Task.execute t s e2).2.error = some msg ∧
      (Task.execute t s e2).2.result = none ∧
      (Task.execute t s e2).1.status = TaskStatus.failed) ∧
    (∀ v, t.func = .callable (.ok v) →
      (Task.execute t s e2).2.status = TaskStatus.completed ∧
      (Task.execute t s e2).2.result = v ∧
      (Task.execute t s e2).2.error = none ∧
      (Task.execute t s e2).1.status = TaskStatus.completed) := by
  constructor
  · intro msg hf
    simp [Task.execute, hf]
  · intro v hf
    simp [Task.execute, hf]

/-- A task whose callable raises "boom". -/
def tF : Task := { func := failFunc, task_id := 0, created_at := 0, scheduled_at := 0 }

/-- A task whose callable returns 7. -/
def tS : Task := { func := okFunc, task_id := 1, created_at := 0, scheduled_at := 0 }

/-- C7 witness: the raising task produces a FAILED result with error
"boom"; the returning task a COMPLETED result with payload 7. -/
theorem C7_execute_contains_errors_witness :
    ((Task.execute tF 0 1).2.status = TaskStatus.failed ∧
      (Task.execute tF 0 1).2.error = some "boom" ∧
      (Task.execute tF 0 1).2.result = none ∧
      (Task.execute tF 0 1).1.status = TaskStatus.failed) ∧
    ((Task.execute tS 0 1).2.status = TaskStatus.completed ∧
      (Task.execute tS 0 1).2.result = some 7 ∧
      (Task.execute tS 0 1).2.error = none ∧
      (Task.execute tS 0 1).1.status = TaskStatus.completed) :=
  ⟨(C7_execute_contains_errors tF 0 1).1 "boom" (by decide),
   (C7_execute_contains_errors tS 0 1).2 (some 7) (by decide)⟩

/-- C8 counterexample: with the queue far from full, `submit_task` on a
non-callable argument does not create, register or enqueue a task and
does not return a task id — it raises ValueError — refuting the claim
that below capacity submit always creates a task and returns its id. -/
theorem C8_submit_counterexample :
    (initState 50).queue.length < (initState 50).max_queue_size ∧
    QueueManager.submit_task (initState 50) .notCallable .normal none 3 none 0 =
      .error (.valueError funcMustBeCallableMsg) := by
  decide

/-- C8 amended: `submit_task` raises the queue-full `QueueError` exactly
when the heap already holds at least `max_queue_size` entries (and then
touches nothing — the capacity check precedes task construction); below
capacity, a callable argument yields a new PENDING task registered under
the fresh id and pushed onto the heap, with the id returned, while a
non-callable argument raises ValueError with nothing registered.  The
freshness hypothesis models the uuid4 generation of task ids. -/
theorem C8_submit_amended (st : ManagerState) (f : PyFunc) (p : TaskPriority)
    (tmo : Option Nat) (mr : Nat) (sc : Option Nat) (now : Nat)
    (hfresh : dget st.tasks st.next_id = none) :
    (st.queue.length ≥ st.max_queue_size →
      QueueManager.submit_task st f p tmo mr sc now = .error (.queueError queueFullMsg)) ∧
    ((∃ m, QueueManager.submit_task st f p tmo mr sc now = .error (.queueError m)) ↔
      st.queue.length ≥ st.max_queue_size) ∧
    (st.queue.length < st.max_queue_size → f = .notCallable →
      QueueManager.submit_task st f p tmo mr sc now =
        .error (.valueError funcMustBeCallableMsg)) ∧
    (∀ b, st.queue.length < st.max_queue_size → f = .callable b →
      QueueManager.submit_task st f p tmo mr sc now =
        .ok (st.next_id,
          { st with
              tasks := dput st.tasks st.next_id (submittedTask f p tmo mr sc now st.next_id),
              queue := heappush (Task.entry (submittedTask f p tmo mr sc now st.next_id)) st.queue,
              next_id := st.next_id + 1 }) ∧
      (submittedTask f p tmo mr sc now st.next_id).status = TaskStatus.pending ∧
      dget (dput st.tasks st.next_id (submittedTask f p tmo mr sc now st.next_id)) st.next_id =
        some (submittedTask f p tmo mr sc now st.next_id)) := by
  refine ⟨fun hq => submit_task_full st f p tmo mr sc now hq, ?_, ?_, ?_⟩
  · constructor
    · rintro ⟨m, hm⟩
      by_contra hq
      cases f with
      | notCallable =>
        rw [submit_task_notCallable st p tmo mr sc now hq] at hm
        cases hm
      | callable b =>
        rw [submit_task_ok st b p tmo mr sc now hq hfresh] at hm
        cases hm
    · intro hq
      exact ⟨queueFullMsg, submit_task_full st f p tmo mr sc now hq⟩
  · intro hq hf
    rw [hf]
    exact submit_task_notCallable st p tmo mr sc now (by omega)
  · intro b hq hf
    rw [hf]
    refine ⟨submit_task_ok st b p tmo mr sc now (by omega) hfresh, rfl, ?_⟩
    rw [dget_dput_self]

/-- C8 amended witness: at capacity zero every submit is rejected with the
queue-full error. -/
theorem C8_submit_amended_witness :
    QueueManager.submit_task (initState 0) okFunc .normal none 3 none 0 =
      .error (.queueError queueFullMsg) :=
  (C8_submit_amended (initState 0) okFunc .normal none 3 none 0 (by decide)).1
    (by decide)

/-- The task of C9: its callable returns the Python value None. -/
def t9 : Task := { func := noneFunc, task_id := 0, created_at := 0, scheduled_at := 0 }

/-- C9 counterexample: executing a task whose callable returns None
produces a COMPLETED TaskResult with BOTH `result` and `error` absent,
refuting "never both absent". -/
theorem C9_result_xor_counterexample :
    (Task.execute t9 0 0).2.status = TaskStatus.completed ∧
    (Task.execute t9 0 0).2.result = none ∧
    (Task.execute t9 0 0).2.error = none := by
  decide

/-- C9 amended: a TaskResult built by `execute` never has both `result`
and `error` set, and it has both absent exactly when the callable
returned None (the `result` field stores the raw return value, which may
itself be the Python None). -/
theorem C9_result_error_fields (t : Task) (s e2 : Nat) :
    ((Task.execute t s e2).2.result = none ∨ (Task.execute t s e2).2.error = none) ∧
    (((Task.execute t s e2).2.result = none ∧ (Task.execute t s e2).2.error = none) ↔
      t.func = PyFunc.callable (.ok none)) := by
  rcases hf : t.func with _ | o
  · simp [Task.execute, hf]
  · cases o with
    | ok v => cases v <;> simp [Task.execute, hf]
    | error m => simp [Task.execute, hf]

/-- C10: below capacity, `submit_task` on a non-callable argument raises
the ValueError of `Task.__post_init__` (before any registration), and the
scheduler state is unchanged: nothing is added to the registry or the
heap.  (At capacity the queue-full check fires first; state is unchanged
there too, as the second conjunct holds for every state.) -/
theorem C10_noncallable_submit (st : ManagerState) (p : TaskPriority)
    (tmo : Option Nat) (mr : Nat) (sc : Option Nat) (now : Nat)
    (h : st.queue.length < st.max_queue_size) :
    QueueManager.submit_task st .notCallable p tmo mr sc now =
      .error (.valueError funcMustBeCallableMsg) ∧
    applyOp st (.submit .notCallable p tmo mr sc now) = st := by
  have h2 : ¬ st.queue.length ≥ st.max_queue_size := by omega
  constructor
  · exact submit_task_notCallable st p tmo mr sc now h2
  · rw [applyOp, submit_task_notCallable st p tmo mr sc now h2]

/-- C10 witness: non-callable submit into an empty manager raises
ValueError and leaves the state exactly as it was. -/
theorem C10_noncallable_submit_witness :
    QueueManager.submit_task (initState 1000) .notCallable .normal none 3 none 0 =
      .error (.valueError funcMustBeCallableMsg) ∧
    applyOp (initState 1000) (.submit .notCallable .normal none 3 none 0) =
      initState 1000 :=
  C10_noncallable_submit (initState 1000) .normal none 3 none 0 (by decide)

end AgentDoc










